import Mathlib

/-!
Shallow embedding of the undo / scheduler-facade layer of
`pylib/anki/collection.py` (class `Collection`), and proofs about it.

The embedded operations are `Collection.undo`, `_undo_review`,
`_undo_checkpoint`, `save_card_review_undo_info`, `_save_checkpoint`,
`clear_python_undo`, `rollback`, `usn`, `schedVer`, `_loadScheduler` and
`upgrade_to_v2_scheduler`.  Python exceptions (pop from an empty list,
missing note row, tuple index out of range) are modelled by `Option`
results; the SQL statements are modelled as list transformations on the
table rows they touch.
-/

namespace Anki

/-- Modelled from the spec: the Card entity (its class is outside the
excerpted sources).  Fields follow the storage row listed in the spec
(id, note id, deck id, queue, type, due, interval, ease factor, reps,
lapses, left-steps) plus the mod/usn bookkeeping columns written by the
sibling-restore SQL in `Collection._undo_review`. -/
structure Card where
  id : Nat
  nid : Nat
  did : Nat
  queue : Int
  type : Int
  due : Int
  ivl : Int
  factor : Int
  reps : Int
  lapses : Int
  left : Int
  mod : Nat
  usn : Int
deriving Repr, DecidableEq

/-- Modelled from the spec: the Note entity (its class is outside the
excerpted sources).  The undo code only needs its id and its tag list
(`has_tag` / `remove_tag` / `flush`); tag matching is modelled as exact
string membership. -/
structure Note where
  id : Nat
  tags : List String
deriving Repr, DecidableEq

/-- One review-log row, as used by the recency query in
`Collection._undo_review`: a monotonic id (it embeds the timestamp) and
the card id it belongs to. -/
structure Revlog where
  id : Nat
  cid : Nat
deriving Repr, DecidableEq

/-- Modelled from the spec: the slice of a deck configuration that
`Collection._undo_review` reads via `self.sched._cardConf(card)` — the
`dyn` (filtered deck) and `resched` flags. -/
structure DeckConf where
  dyn : Bool
  resched : Bool
deriving Repr, DecidableEq

/-- The relational store touched by the embedded operations: the cards,
notes and revlog tables. -/
structure DBState where
  cards : List Card
  notes : List Note
  revlog : List Revlog
deriving Repr, DecidableEq

/-- The `ReviewUndo` dataclass of collection.py: a snapshot of a card
plus whether its note already carried the leech tag. -/
structure ReviewUndo where
  card : Card
  was_leech : Bool
deriving Repr, DecidableEq

/-- The `_UndoInfo` union of collection.py: `_ReviewsUndo` (with its list
of entries), `Checkpoint`, or `None`. -/
inductive UndoInfo where
  | reviews (entries : List ReviewUndo)
  | checkpoint (name : String)
  | none
deriving Repr, DecidableEq

/-- The `UndoResult` union of collection.py:
`Union[None, BackendUndo, Checkpoint, ReviewUndo]`. -/
inductive UndoResult where
  | none
  | backendUndo (name : String)
  | checkpoint (name : String)
  | reviewUndo (entry : ReviewUndo)
deriving Repr, DecidableEq

/-- Which scheduler implementation `_loadScheduler` selected
(V1Scheduler, V2Scheduler, or the 2021 V3TestScheduler). -/
inductive SchedulerKind where
  | v1
  | v2
  | v3Test
deriving Repr, DecidableEq

/-- The three daily counters named by the tuple
`("new", "lrn", "rev")` in `Collection._undo_review`. -/
inductive CounterKind where
  | new
  | lrn
  | rev
deriving Repr, DecidableEq

/-- The state of one open collection: the db connection (current rows,
rows as of the last commit, and a transaction generation counter that
`begin` bumps), the Python undo slot `_undo`, the backend undo status and
a counter of backend undo invocations, the scheduler session state
(reps, the three daily counters, a counter of `reset()` calls), the deck
configuration lookup used by `_cardConf`, the persisted scheduler version
flag and 2021-test-scheduler config bool, which scheduler is loaded, the
server flag and the `usn` column of the col table, the current clock
`intTime()`, and the card rewrite applied by the backend scheduler
upgrade (modelled from the spec as an opaque per-card rewrite). -/
structure Col where
  db : DBState
  dbCommitted : DBState
  txnGen : Nat
  _undo : UndoInfo
  backendUndoName : String
  backendRedoName : String
  backendUndoCalls : Nat
  reps : Int
  newCount : Int
  lrnCount : Int
  revCount : Int
  resets : Nat
  cardConf : Card → DeckConf
  schedVerFlag : Option Int
  sched2021 : Bool
  schedKind : Option SchedulerKind
  server : Bool
  dbUsn : Int
  now : Nat
  lastCheckpointAt : Nat
  upgradeRewrite : Card → Card

/-- Queue constant from anki.consts: QUEUE_TYPE_LRN = 1. -/
def QUEUE_TYPE_LRN : Int := 1

/-- Queue constant from anki.consts: QUEUE_TYPE_DAY_LEARN_RELEARN = 3. -/
def QUEUE_TYPE_DAY_LEARN_RELEARN : Int := 3

/-- Queue constant from anki.consts: QUEUE_TYPE_PREVIEW = 4. -/
def QUEUE_TYPE_PREVIEW : Int := 4

/-- Queue constant used literally in the sibling-restore SQL of
`Collection._undo_review`: the sibling-buried queue value -2. -/
def QUEUE_TYPE_SIBLING_BURIED : Int := -2

/-- Look a note up by id, as `Collection.get_note` does (a missing row
raises in Python, hence `Option` here). -/
def getNote? (notes : List Note) (nid : Nat) : Option Note :=
  notes.find? (fun n => n.id = nid)

/-- Python `note.has_tag(tag)`, modelled as exact membership in the tag
list. -/
def hasTag (n : Note) (tag : String) : Bool :=
  decide (tag ∈ n.tags)

/-- Python `note.remove_tag(tag)`, modelled as removing every exact
occurrence of the tag. -/
def removeTag (n : Note) (tag : String) : Note :=
  { n with tags := n.tags.filter (fun t => t ≠ tag) }

/-- Persist a card row (`card.flush()`): the stored row with the same id
is overwritten with the in-memory state. -/
def flushCard (card : Card) (cards : List Card) : List Card :=
  cards.map (fun r => if r.id = card.id then card else r)

/-- Persist a note row (`note.flush()`): the stored row with the same id
is overwritten with the in-memory state. -/
def flushNote (note : Note) (notes : List Note) : List Note :=
  notes.map (fun n => if n.id = note.id then note else n)

/-- Look a card row up by id, as the storage layer does. -/
def lookupCard (cards : List Card) (cid : Nat) : Option Card :=
  cards.find? (fun r => r.id = cid)

/-- The recency query of `Collection._undo_review`:
`select id from revlog where cid = ? order by id desc limit 1`, i.e. the
largest revlog id among the rows of the given card (none if there are no
such rows). -/
def maxIdOfCid (cid : Nat) : List Revlog → Option Nat
  | [] => Option.none
  | r :: rs =>
    let rest := maxIdOfCid cid rs
    if r.cid = cid then
      match rest with
      | Option.none => some r.id
      | some m => some (max r.id m)
    else rest

/-- The revlog deletion of `Collection._undo_review`: look up the most
recent revlog id for the card, then
`delete from revlog where id = ?` (deleting nothing when the lookup
returned NULL). -/
def deleteLatestRevlog (cid : Nat) (rows : List Revlog) : List Revlog :=
  match maxIdOfCid cid rows with
  | some last => rows.filter (fun r => r.id ≠ last)
  | Option.none => rows

/-- The sibling-restore SQL of `Collection._undo_review`:
`update cards set queue=type,mod=?,usn=? where queue=-2 and nid=?`. -/
def restoreSiblings (nid : Nat) (now : Nat) (usn : Int) (cards : List Card) : List Card :=
  cards.map (fun r =>
    if r.queue = QUEUE_TYPE_SIBLING_BURIED ∧ r.nid = nid then
      { r with queue := r.type, mod := now, usn := usn }
    else r)

/-- Python tuple indexing `("new", "lrn", "rev")[n]`, including negative
index wrap-around; an out-of-range index raises IndexError, hence
`Option`. -/
def tupleIndex (n : Int) : Option CounterKind :=
  if n = 0 ∨ n = -3 then some CounterKind.new
  else if n = 1 ∨ n = -2 then some CounterKind.lrn
  else if n = 2 ∨ n = -1 then some CounterKind.rev
  else Option.none

namespace Col

/-- `Collection.usn`: the usn column when acting as a server, -1
otherwise. -/
def usn (c : Col) : Int :=
  if c.server then c.dbUsn else -1

/-- `Collection.clear_python_undo`: reset the Python undo state to None. -/
def clear_python_undo (c : Col) : Col :=
  { c with _undo := UndoInfo.none }

/-- Modelled from the spec: `RustBackend.undo` (the richer external undo
source) — the call itself is outside the excerpted sources, so it is
tracked as an invocation counter. -/
def backendUndoOp (c : Col) : Col :=
  { c with backendUndoCalls := c.backendUndoCalls + 1 }

/-- `Collection.rollback`: clear caches (not represented), roll the db
back to the last commit, and begin a fresh transaction. -/
def rollback (c : Col) : Col :=
  { c with db := c.dbCommitted, txnGen := c.txnGen + 1 }

/-- Modelled from the spec: `Scheduler._updateStats` (scheduler code
outside the excerpted sources) applies the given delta to the named
daily counter. -/
def _updateStats (k : CounterKind) (delta : Int) (c : Col) : Col :=
  { c with
    newCount := if k = CounterKind.new then c.newCount + delta else c.newCount,
    lrnCount := if k = CounterKind.lrn then c.lrnCount + delta else c.lrnCount,
    revCount := if k = CounterKind.rev then c.revCount + delta else c.revCount }

/-- Modelled from the spec: `Scheduler.reset` (scheduler code outside the
excerpted sources) rebuilds the in-memory queues; only the fact that it
ran is tracked. -/
def schedReset (c : Col) : Col :=
  { c with resets := c.resets + 1 }

/-- `Collection.save_card_review_undo_info`: start a fresh `_ReviewsUndo`
unless one is already pending, then append a snapshot of the card
together with whether its note currently carries the leech tag.  A
missing note row raises in Python, hence `Option`. -/
def save_card_review_undo_info (card : Card) (c : Col) : Option Col :=
  let es :=
    match c._undo with
    | UndoInfo.reviews es => es
    | _ => []
  match getNote? c.db.notes card.nid with
  | Option.none => Option.none
  | some note =>
    let entry : ReviewUndo := { card := card, was_leech := hasTag note "leech" }
    some { c with _undo := UndoInfo.reviews (es ++ [entry]) }

/-- `Collection._save_checkpoint` (called via `save()`): a truthy name
installs a checkpoint entry; otherwise any old checkpoint is cleared but
a pending review undo is kept. -/
def _save_checkpoint (name : Option String) (c : Col) : Col :=
  let c := { c with lastCheckpointAt := c.now }
  match name with
  | some n =>
    if n ≠ "" then { c with _undo := UndoInfo.checkpoint n }
    else
      match c._undo with
      | UndoInfo.reviews _ => c
      | _ => c.clear_python_undo
  | Option.none =>
    match c._undo with
    | UndoInfo.reviews _ => c
    | _ => c.clear_python_undo

/-- `Collection._undo_checkpoint`: assert the pending entry is a
checkpoint, roll the transaction back, clear the undo state, and return
the checkpoint. -/
def _undo_checkpoint (c : Col) : Option (UndoResult × Col) :=
  match c._undo with
  | UndoInfo.checkpoint name =>
    let c := c.rollback
    some (UndoResult.checkpoint name, c.clear_python_undo)
  | _ => Option.none

/-- `Collection._undo_review`: pop the most recent snapshot (clearing the
undo state if the batch is now empty), remove a newly added leech tag,
flush the snapshot over the card row, delete the most recent revlog row
of the card unless previewing, restore sibling-buried cards of the same
note, decrement the daily counter selected by the snapshot queue (with
the day-learn-relearn and preview queues folded onto lrn, via Python
tuple indexing), decrement reps, and reset the queues. -/
def _undo_review (c : Col) : Option (UndoResult × Col) :=
  match c._undo with
  | UndoInfo.reviews entries =>
    match entries.getLast? with
    | Option.none => Option.none
    | some entry =>
      let rest := entries.dropLast
      let undo1 := if rest.isEmpty then UndoInfo.none else UndoInfo.reviews rest
      let card := entry.card
      match getNote? c.db.notes card.nid with
      | Option.none => Option.none
      | some note =>
        -- remove leech tag if it did not have it before, and flush the note
        let notes1 :=
          if !entry.was_leech && hasTag note "leech" then
            flushNote (removeTag note "leech") c.db.notes
          else c.db.notes
        -- write old data (card.flush)
        let cards1 := flushCard card c.db.cards
        -- and delete revlog entry if not previewing
        let conf := c.cardConf card
        let previewing := conf.dyn && !conf.resched
        let revlog1 :=
          if previewing then c.db.revlog
          else deleteLatestRevlog card.id c.db.revlog
        -- restore any siblings
        let cards2 := restoreSiblings card.nid c.now c.usn cards1
        -- update daily counts
        let n : Int :=
          if card.queue = QUEUE_TYPE_DAY_LEARN_RELEARN ∨ card.queue = QUEUE_TYPE_PREVIEW then
            QUEUE_TYPE_LRN
          else card.queue
        match tupleIndex n with
        | Option.none => Option.none
        | some k =>
          let c1 := { c with _undo := undo1,
                             db := { cards := cards2, notes := notes1, revlog := revlog1 } }
          let c2 := Col._updateStats k (-1) c1
          let c3 := { c2 with reps := c2.reps - 1 }
          -- and refresh the queues
          some (UndoResult.reviewUndo entry, c3.schedReset)
  | _ => Option.none

/-- `Collection.undo`: a truthy backend undo status preempts the Python
undo state (perform the backend undo, clear the Python state, return a
BackendUndo); otherwise dispatch on the pending Python entry, returning
None when the queue is empty. -/
def undo (c : Col) : Option (UndoResult × Col) :=
  if c.backendUndoName ≠ "" then
    let name := c.backendUndoName
    let c := c.backendUndoOp
    some (UndoResult.backendUndo name, c.clear_python_undo)
  else
    match c._undo with
    | UndoInfo.reviews _ => c._undo_review
    | UndoInfo.checkpoint _ => c._undo_checkpoint
    | UndoInfo.none => some (UndoResult.none, c)

/-- `Collection.supportedSchedulerVersions = (1, 2)`. -/
def supportedSchedulerVersions : List Int := [1, 2]

/-- `Collection.schedVer`: read the schedVer config flag (default 1);
return it when supported, otherwise raise
"Unsupported scheduler version". -/
def schedVer (c : Col) : Except String Int :=
  let ver := c.schedVerFlag.getD 1
  if ver ∈ supportedSchedulerVersions then Except.ok ver
  else Except.error "Unsupported scheduler version"

/-- `Collection._loadScheduler`: select the scheduler implementation from
`schedVer` — version 1 loads V1Scheduler, version 2 loads V2Scheduler or,
when the 2021 test scheduler config bool is set, V3TestScheduler.  The
trailing branch is unreachable because `schedVer` only returns supported
versions (Python would leave the scheduler unassigned). -/
def _loadScheduler (c : Col) : Except String Col :=
  match c.schedVer with
  | Except.error e => Except.error e
  | Except.ok ver =>
    if ver = 1 then Except.ok { c with schedKind := some SchedulerKind.v1 }
    else if ver = 2 then
      if c.sched2021 then Except.ok { c with schedKind := some SchedulerKind.v3Test }
      else Except.ok { c with schedKind := some SchedulerKind.v2 }
    else Except.ok c

/-- Modelled from the spec: `RustBackend.upgrade_scheduler` (outside the
excerpted sources) rewrites the due/interval encoding of every card to
the v2 scheme (an opaque per-card rewrite here), sets the persisted
scheduler version flag to 2, and invalidates the backend undo stack. -/
def backendUpgradeScheduler (c : Col) : Col :=
  { c with
    db := { c.db with cards := c.db.cards.map c.upgradeRewrite },
    schedVerFlag := some 2,
    backendUndoName := "",
    backendRedoName := "" }

/-- `Collection.upgrade_to_v2_scheduler`: backend upgrade, then
`clear_python_undo`, then `_loadScheduler`. -/
def upgrade_to_v2_scheduler (c : Col) : Except String Col :=
  let c1 := c.backendUpgradeScheduler
  let c2 := c1.clear_python_undo
  c2._loadScheduler

end Col

/-- The cards table produced by undoing a review: the snapshot is flushed
over its row, then sibling-buried cards of the same note are restored. -/
def cardsAfterUndo (c : Col) (e : ReviewUndo) : List Card :=
  restoreSiblings e.card.nid c.now c.usn (flushCard e.card c.db.cards)

/-- The notes table produced by undoing a review: the leech tag is
removed (and the note flushed) exactly when the snapshot was not a leech
but the note now carries the tag. -/
def notesAfterUndo (c : Col) (e : ReviewUndo) (note : Note) : List Note :=
  if !e.was_leech && hasTag note "leech" then
    flushNote (removeTag note "leech") c.db.notes
  else c.db.notes

/-- The revlog table produced by undoing a review: unchanged when
previewing (filtered deck without rescheduling), otherwise the most
recent row of the card is deleted. -/
def revlogAfterUndo (c : Col) (e : ReviewUndo) : List Revlog :=
  if (c.cardConf e.card).dyn && !(c.cardConf e.card).resched then
    c.db.revlog
  else deleteLatestRevlog e.card.id c.db.revlog

/-- The daily counter that the undo of a review with the given snapshot
queue ends up decrementing: queue 0 is new, queue 2 is rev, and queues
1, 3 and 4 all land on lrn. -/
def counterKindOfQueue (q : Int) : CounterKind :=
  if q = 0 then CounterKind.new
  else if q = 2 then CounterKind.rev
  else CounterKind.lrn

theorem tupleIndex_queue (q : Int) (h0 : 0 ≤ q) (h4 : q ≤ 4) :
    tupleIndex
      (if q = QUEUE_TYPE_DAY_LEARN_RELEARN ∨ q = QUEUE_TYPE_PREVIEW then QUEUE_TYPE_LRN else q)
      = some (counterKindOfQueue q) := by
  interval_cases q <;> rfl

theorem maxIdOfCid_eq_none (cid : Nat) (l : List Revlog) :
    maxIdOfCid cid l = Option.none ↔ ∀ r ∈ l, r.cid ≠ cid := by
  induction l with
  | nil => simp [maxIdOfCid]
  | cons a t ih =>
    unfold maxIdOfCid
    by_cases ha : a.cid = cid
    · simp only [ha, if_true]
      constructor
      · intro h
        cases hrest : maxIdOfCid cid t <;> rw [hrest] at h <;> simp at h
      · intro h
        exact absurd ha (h a (List.mem_cons_self a t))
    · simp only [ha, if_false, ih]
      constructor
      · intro h r hr hc
        rcases List.mem_cons.mp hr with hr | hr
        · exact ha (hr ▸ hc)
        · exact h r hr hc
      · intro h r hr hc
        exact h r (List.mem_cons_of_mem a hr) hc

theorem maxIdOfCid_mem (cid : Nat) (l : List Revlog) (m : Nat)
    (h : maxIdOfCid cid l = some m) :
    ∃ r, r ∈ l ∧ r.cid = cid ∧ r.id = m := by
  induction l generalizing m with
  | nil => simp [maxIdOfCid] at h
  | cons a t ih =>
    unfold maxIdOfCid at h
    by_cases ha : a.cid = cid
    · simp only [ha, if_true] at h
      cases hrest : maxIdOfCid cid t with
      | none =>
        rw [hrest] at h
        simp only [Option.some.injEq] at h
        exact ⟨a, List.mem_cons_self a t, ha, h ▸ rfl⟩
      | some m' =>
        rw [hrest] at h
        simp only [Option.some.injEq] at h
        rcases max_choice a.id m' with hm | hm
        · exact ⟨a, List.mem_cons_self a t, ha, by rw [← h, hm]⟩
        · rcases ih m' hrest with ⟨r, hr, hc, hid⟩
          exact ⟨r, List.mem_cons_of_mem a hr, hc, by rw [hid, ← h, hm]⟩
    · simp only [ha, if_false] at h
      rcases ih m h with ⟨r, hr, hc, hid⟩
      exact ⟨r, List.mem_cons_of_mem a hr, hc, hid⟩

theorem maxIdOfCid_ge (cid : Nat) (l : List Revlog) (m : Nat)
    (h : maxIdOfCid cid l = some m) :
    ∀ r ∈ l, r.cid = cid → r.id ≤ m := by
  induction l generalizing m with
  | nil => intro r hr; cases hr
  | cons a t ih =>
    intro r hr hc
    unfold maxIdOfCid at h
    by_cases ha : a.cid = cid
    · simp only [ha, if_true] at h
      cases hrest : maxIdOfCid cid t with
      | none =>
        rw [hrest] at h
        simp only [Option.some.injEq] at h
        rcases List.mem_cons.mp hr with hr | hr
        · exact le_of_eq (by rw [hr, h])
        · exact absurd hc ((maxIdOfCid_eq_none cid t).mp hrest r hr)
      | some m' =>
        rw [hrest] at h
        simp only [Option.some.injEq] at h
        rcases List.mem_cons.mp hr with hr | hr
        · rw [hr, ← h]; exact le_max_left _ _
        · calc r.id ≤ m' := ih m' hrest r hr hc
            _ ≤ max a.id m' := le_max_right _ _
            _ = m := h
    · simp only [ha, if_false] at h
      rcases List.mem_cons.mp hr with hr | hr
      · exact absurd hc (hr ▸ ha)
      · exact ih m h r hr hc

/-- Deleting all rows whose id equals the id of a member of a
duplicate-id-free list removes exactly that member. -/
theorem filter_ne_id_eq_erase (l : List Revlog) (r : Revlog)
    (hr : r ∈ l) (hnd : (l.map Revlog.id).Nodup) :
    l.filter (fun x => x.id ≠ r.id) = l.erase r := by
  induction l with
  | nil => cases hr
  | cons a t ih =>
    rw [List.map_cons, List.nodup_cons] at hnd
    rcases List.mem_cons.mp hr with hra | hrt
    · subst hra
      rw [List.erase_cons_head, List.filter_cons, if_neg (by simp)]
      apply List.filter_eq_self.mpr
      intro x hx
      simp only [ne_eq, decide_eq_true_eq]
      intro hxid
      exact hnd.1 (hxid ▸ List.mem_map_of_mem Revlog.id hx)
    · have haid : a.id ≠ r.id := by
        intro he
        exact hnd.1 (he ▸ List.mem_map_of_mem Revlog.id hrt)
      have har : a ≠ r := fun he => haid (he ▸ rfl)
      rw [List.erase_cons_tail (by simpa using har), List.filter_cons,
        if_pos (by simpa using haid)]
      rw [ih hrt hnd.2]

/-- Characterization of `Collection.undo` on a state whose pending undo
entry is a reviews batch ending in the snapshot e, when the backend has
no undo entry: the call returns the snapshot and the resulting state is
described field by field. -/
theorem undo_review_spec (c : Col) (es : List ReviewUndo) (e : ReviewUndo) (note : Note)
    (hb : c.backendUndoName = "")
    (hu : c._undo = UndoInfo.reviews (es ++ [e]))
    (hn : getNote? c.db.notes e.card.nid = some note)
    (h0 : 0 ≤ e.card.queue) (h4 : e.card.queue ≤ 4) :
    ∃ c', Col.undo c = some (UndoResult.reviewUndo e, c') ∧
      c'.db.cards = cardsAfterUndo c e ∧
      c'.db.notes = notesAfterUndo c e note ∧
      c'.db.revlog = revlogAfterUndo c e ∧
      c'._undo = (if es.isEmpty then UndoInfo.none else UndoInfo.reviews es) ∧
      c'.reps = c.reps - 1 ∧
      c'.resets = c.resets + 1 ∧
      c'.newCount =
        (if counterKindOfQueue e.card.queue = CounterKind.new then c.newCount - 1
         else c.newCount) ∧
      c'.lrnCount =
        (if counterKindOfQueue e.card.queue = CounterKind.lrn then c.lrnCount - 1
         else c.lrnCount) ∧
      c'.revCount =
        (if counterKindOfQueue e.card.queue = CounterKind.rev then c.revCount - 1
         else c.revCount) ∧
      c'.backendUndoName = c.backendUndoName ∧
      c'.backendUndoCalls = c.backendUndoCalls ∧
      c'.dbCommitted = c.dbCommitted ∧
      c'.txnGen = c.txnGen ∧
      c'.now = c.now ∧
      c'.cardConf = c.cardConf := by
  simp only [Col.undo, Col._undo_review, hb, hu, hn, ne_eq, not_true_eq_false, if_false,
    List.getLast?_concat, List.dropLast_concat, tupleIndex_queue e.card.queue h0 h4]
  exact ⟨_, rfl, rfl, rfl, rfl, rfl, rfl, rfl, rfl, rfl, rfl, rfl, rfl, rfl, rfl, rfl, rfl⟩

/-- Mapping a list does not change which element a `find?` locates, as
long as the map cannot make the predicate become true on the elements
before the hit, and the hit still satisfies it afterwards. -/
theorem find?_map_of_find? {α : Type} (p : α → Bool) (F : α → α) (l : List α) (a : α)
    (h : l.find? p = some a)
    (hpF : ∀ x, p x = false → p (F x) = false)
    (hFa : p (F a) = true) :
    (l.map F).find? p = some (F a) := by
  induction l with
  | nil => simp at h
  | cons x t ih =>
    rw [List.map_cons]
    cases hx : p x with
    | true =>
      rw [List.find?_cons_of_pos _ hx] at h
      injection h with h
      subst h
      rw [List.find?_cons_of_pos _ hFa]
    | false =>
      rw [List.find?_cons_of_neg _ (by simp [hx])] at h
      rw [List.find?_cons_of_neg _ (by simp [hpF x hx])]
      exact ih h

theorem hasTag_removeTag (n : Note) (t : String) :
    hasTag (removeTag n t) t = false := by
  simp [hasTag, removeTag, List.mem_filter]

theorem removeTag_id (n : Note) (t : String) : (removeTag n t).id = n.id := rfl

/-- The list of snapshots already pending in the Python undo slot (empty
unless a reviews batch is pending), as read by
`Collection.save_card_review_undo_info`. -/
def pendingReviewEntries (u : UndoInfo) : List ReviewUndo :=
  match u with
  | UndoInfo.reviews es => es
  | _ => []

/-!  Concrete fixture states used to evaluate the operations on small
inputs. -/

/-- A note carrying the leech tag. -/
def noteL : Note := { id := 5, tags := ["leech"] }

/-- A review card as it was before being answered (the snapshot). -/
def cardSnap : Card :=
  { id := 11, nid := 5, did := 1, queue := 2, type := 2, due := 100, ivl := 10,
    factor := 2500, reps := 3, lapses := 1, left := 0, mod := 900, usn := -1 }

/-- The same card as the answer left it in storage. -/
def cardPost : Card :=
  { cardSnap with
    queue := 1, due := 1200, ivl := 1, factor := 2300,
    reps := 4, lapses := 2, mod := 1000 }

/-- A sibling card of the same note, buried by the answer (queue -2). -/
def cardBuried : Card :=
  { id := 12, nid := 5, did := 1, queue := -2, type := 0, due := 7, ivl := 0,
    factor := 0, reps := 0, lapses := 0, left := 2, mod := 900, usn := -1 }

/-- The pre-answer snapshot entry: the note was not yet a leech. -/
def entrySnap : ReviewUndo := { card := cardSnap, was_leech := false }

/-- Storage right after the answer: the updated card row, the buried
sibling, the leech-tagged note, and three revlog rows of which id 100 is
the most recent one for card 11. -/
def dbPost : DBState :=
  { cards := [cardPost, cardBuried],
    notes := [noteL],
    revlog := [{ id := 90, cid := 11 }, { id := 100, cid := 11 }, { id := 95, cid := 22 }] }

/-- A collection state immediately after the answer was recorded: a
one-snapshot reviews batch is pending, the backend has nothing to undo,
and the deck is a regular one. -/
def colBase : Col :=
  { db := dbPost,
    dbCommitted := { cards := [cardSnap], notes := [noteL], revlog := [] },
    txnGen := 1,
    _undo := UndoInfo.reviews [entrySnap],
    backendUndoName := "",
    backendRedoName := "",
    backendUndoCalls := 0,
    reps := 9,
    newCount := 2,
    lrnCount := 3,
    revCount := 4,
    resets := 0,
    cardConf := fun _ => { dyn := false, resched := true },
    schedVerFlag := some 2,
    sched2021 := false,
    schedKind := some SchedulerKind.v2,
    server := false,
    dbUsn := 0,
    now := 5000,
    lastCheckpointAt := 0,
    upgradeRewrite := fun r => r }

/-- The same situation in a filtered deck without rescheduling (the
previewing case). -/
def colPreview : Col :=
  { colBase with cardConf := fun _ => { dyn := true, resched := false } }

/-- Two snapshots pending in one reviews batch (two reviews were
answered since the last non-review operation). -/
def entryTwoA : ReviewUndo :=
  { card := { cardSnap with due := 50 }, was_leech := true }

/-- The second, more recent snapshot of the two-review batch. -/
def entryTwoB : ReviewUndo := { card := cardSnap, was_leech := true }

/-- A collection with a two-snapshot reviews batch pending. -/
def colTwo : Col :=
  { colBase with _undo := UndoInfo.reviews [entryTwoA, entryTwoB] }

/-- A collection whose undo queue is completely empty. -/
def colEmptyUndo : Col := { colBase with _undo := UndoInfo.none }

/-- A collection with a pending named checkpoint. -/
def colCheckpoint : Col :=
  { colBase with _undo := UndoInfo.checkpoint "Answer Card" }

/-- A collection on which the backend reports an undo entry. -/
def colBackendPending : Col :=
  { colBase with backendUndoName := "Update Note" }

/-- A collection whose persisted scheduler version flag holds the
unsupported value 5. -/
def colBadVer : Col := { colBase with schedVerFlag := some 5 }

/-!  Claim theorems. -/

/-- C3: whenever the external backend undo source reports an undo entry
available, undo() defers to it: it performs the backend undo, clears the
Python (simple-log) undo state, and returns a BackendUndo result instead
of consuming any pending reviews-batch or checkpoint entry (the storage
and session state are untouched). -/
theorem backend_undo_preempts (c : Col) (hb : c.backendUndoName ≠ "") :
    ∃ c', Col.undo c = some (UndoResult.backendUndo c.backendUndoName, c') ∧
      c'._undo = UndoInfo.none ∧
      c'.backendUndoCalls = c.backendUndoCalls + 1 ∧
      c'.db = c.db ∧ c'.reps = c.reps ∧ c'.newCount = c.newCount ∧
      c'.lrnCount = c.lrnCount ∧ c'.revCount = c.revCount ∧
      c'.dbCommitted = c.dbCommitted ∧ c'.txnGen = c.txnGen := by
  unfold Col.undo
  rw [if_pos hb]
  exact ⟨_, rfl, rfl, rfl, rfl, rfl, rfl, rfl, rfl, rfl, rfl⟩

/-- Witness for backend_undo_preempts at the concrete state
colBackendPending. -/
theorem backend_undo_preempts_witness :
    ∃ c', Col.undo colBackendPending
        = some (UndoResult.backendUndo colBackendPending.backendUndoName, c') ∧
      c'._undo = UndoInfo.none ∧
      c'.backendUndoCalls = colBackendPending.backendUndoCalls + 1 ∧
      c'.db = colBackendPending.db ∧ c'.reps = colBackendPending.reps ∧
      c'.newCount = colBackendPending.newCount ∧
      c'.lrnCount = colBackendPending.lrnCount ∧
      c'.revCount = colBackendPending.revCount ∧
      c'.dbCommitted = colBackendPending.dbCommitted ∧
      c'.txnGen = colBackendPending.txnGen :=
  backend_undo_preempts colBackendPending (by decide)

/-- C4: when the undo log is empty (no backend undo, no reviews batch,
no checkpoint), undo() returns the nothing-to-undo value None without
raising an error and without changing any state. -/
theorem undo_empty_returns_none (c : Col) (hb : c.backendUndoName = "")
    (hu : c._undo = UndoInfo.none) :
    Col.undo c = some (UndoResult.none, c) := by
  unfold Col.undo
  rw [hb]
  simp [hu]

/-- Witness for undo_empty_returns_none at the concrete state
colEmptyUndo. -/
theorem undo_empty_returns_none_witness :
    Col.undo colEmptyUndo = some (UndoResult.none, colEmptyUndo) :=
  undo_empty_returns_none colEmptyUndo rfl rfl

/-- C5: when the pending undo entry is a checkpoint, undo() rolls back
the entire storage transaction, restarts a fresh transaction, clears the
undo state, and returns the checkpoint result carrying its opaque
name. -/
theorem undo_checkpoint_rolls_back (c : Col) (name : String)
    (hb : c.backendUndoName = "") (hu : c._undo = UndoInfo.checkpoint name) :
    ∃ c', Col.undo c = some (UndoResult.checkpoint name, c') ∧
      c'.db = c.dbCommitted ∧ c'.txnGen = c.txnGen + 1 ∧
      c'._undo = UndoInfo.none := by
  unfold Col.undo Col._undo_checkpoint
  rw [hb]
  simp only [ne_eq, not_true_eq_false, if_false, hu]
  exact ⟨_, rfl, rfl, rfl, rfl⟩

/-- Witness for undo_checkpoint_rolls_back at the concrete state
colCheckpoint. -/
theorem undo_checkpoint_rolls_back_witness :
    ∃ c', Col.undo colCheckpoint = some (UndoResult.checkpoint "Answer Card", c') ∧
      c'.db = colCheckpoint.dbCommitted ∧ c'.txnGen = colCheckpoint.txnGen + 1 ∧
      c'._undo = UndoInfo.none :=
  undo_checkpoint_rolls_back colCheckpoint "Answer Card" rfl rfl

/-- C8: the facade selects the scheduler generation from the persisted
version flag: flag 1 loads the generation-1 scheduler, flag 2 loads the
generation-2 scheduler (or the 2021 test scheduler when that config bool
is set), and any other flag value makes schedVer raise
"Unsupported scheduler version" and _loadScheduler load nothing. -/
theorem scheduler_version_dispatch (c : Col) (v : Int) (hv : c.schedVerFlag = some v) :
    (v = 1 →
      Col._loadScheduler c = Except.ok { c with schedKind := some SchedulerKind.v1 }) ∧
    (v = 2 → c.sched2021 = false →
      Col._loadScheduler c = Except.ok { c with schedKind := some SchedulerKind.v2 }) ∧
    (v = 2 → c.sched2021 = true →
      Col._loadScheduler c = Except.ok { c with schedKind := some SchedulerKind.v3Test }) ∧
    (v ≠ 1 → v ≠ 2 →
      Col.schedVer c = Except.error "Unsupported scheduler version" ∧
      Col._loadScheduler c = Except.error "Unsupported scheduler version") := by
  refine ⟨?_, ?_, ?_, ?_⟩
  · rintro rfl
    simp [Col._loadScheduler, Col.schedVer, hv, Col.supportedSchedulerVersions]
  · rintro rfl h2
    simp [Col._loadScheduler, Col.schedVer, hv, Col.supportedSchedulerVersions, h2]
  · rintro rfl h2
    simp [Col._loadScheduler, Col.schedVer, hv, Col.supportedSchedulerVersions, h2]
  · intro h1 h2
    have hver : Col.schedVer c = Except.error "Unsupported scheduler version" := by
      simp [Col.schedVer, hv, Col.supportedSchedulerVersions, h1, h2]
    exact ⟨hver, by simp [Col._loadScheduler, hver]⟩

/-- Witness for scheduler_version_dispatch at the concrete state
colBadVer, whose flag holds the unsupported value 5. -/
theorem scheduler_version_dispatch_witness :
    ((5 : Int) = 1 →
      Col._loadScheduler colBadVer
        = Except.ok { colBadVer with schedKind := some SchedulerKind.v1 }) ∧
    ((5 : Int) = 2 → colBadVer.sched2021 = false →
      Col._loadScheduler colBadVer
        = Except.ok { colBadVer with schedKind := some SchedulerKind.v2 }) ∧
    ((5 : Int) = 2 → colBadVer.sched2021 = true →
      Col._loadScheduler colBadVer
        = Except.ok { colBadVer with schedKind := some SchedulerKind.v3Test }) ∧
    ((5 : Int) ≠ 1 → (5 : Int) ≠ 2 →
      Col.schedVer colBadVer = Except.error "Unsupported scheduler version" ∧
      Col._loadScheduler colBadVer = Except.error "Unsupported scheduler version") :=
  scheduler_version_dispatch colBadVer 5 rfl

/-- C9: the upgrade to the v2 scheduler clears the Python undo log
(setting it to the explicit no-undo state) before reloading the
scheduler, so whatever undo entry was recorded before the migration, the
state after it holds none. -/
theorem upgrade_clears_python_undo (c : Col) :
    ∃ c', Col.upgrade_to_v2_scheduler c = Except.ok c' ∧ c'._undo = UndoInfo.none := by
  unfold Col.upgrade_to_v2_scheduler Col._loadScheduler Col.schedVer
    Col.backendUpgradeScheduler Col.clear_python_undo
  by_cases h : c.sched2021 <;>
    simp [Col.supportedSchedulerVersions, h]

/-- C7: undoing a review decrements exactly one daily counter — the one
selected by the restored card snapshot queue, with the day-learn-relearn
and preview queues mapped onto the learning counter — decrements the
session repetition count by one, and forces a full queue reset. -/
theorem undo_review_decrements_counter (c : Col) (es : List ReviewUndo)
    (e : ReviewUndo) (note : Note)
    (hb : c.backendUndoName = "")
    (hu : c._undo = UndoInfo.reviews (es ++ [e]))
    (hn : getNote? c.db.notes e.card.nid = some note)
    (h0 : 0 ≤ e.card.queue) (h4 : e.card.queue ≤ 4) :
    ∃ c', Col.undo c = some (UndoResult.reviewUndo e, c') ∧
      (e.card.queue = 0 →
        c'.newCount = c.newCount - 1 ∧ c'.lrnCount = c.lrnCount ∧
        c'.revCount = c.revCount) ∧
      (e.card.queue = QUEUE_TYPE_LRN ∨ e.card.queue = QUEUE_TYPE_DAY_LEARN_RELEARN ∨
          e.card.queue = QUEUE_TYPE_PREVIEW →
        c'.lrnCount = c.lrnCount - 1 ∧ c'.newCount = c.newCount ∧
        c'.revCount = c.revCount) ∧
      (e.card.queue = 2 →
        c'.revCount = c.revCount - 1 ∧ c'.newCount = c.newCount ∧
        c'.lrnCount = c.lrnCount) ∧
      c'.reps = c.reps - 1 ∧
      c'.resets = c.resets + 1 := by
  obtain ⟨c', h1, _, _, _, _, hreps, hresets, hnew, hlrn, hrev, _⟩ :=
    undo_review_spec c es e note hb hu hn h0 h4
  refine ⟨c', h1, ?_, ?_, ?_, hreps, hresets⟩
  · intro hq
    rw [hnew, hlrn, hrev]
    simp [counterKindOfQueue, hq]
  · intro hq
    rw [hnew, hlrn, hrev]
    rcases hq with hq | hq | hq <;>
      simp [counterKindOfQueue, hq, QUEUE_TYPE_LRN, QUEUE_TYPE_DAY_LEARN_RELEARN,
        QUEUE_TYPE_PREVIEW]
  · intro hq
    rw [hnew, hlrn, hrev]
    simp [counterKindOfQueue, hq]

/-- Witness for undo_review_decrements_counter at the concrete state
colBase, whose snapshot card sits in the review queue (2). -/
theorem undo_review_decrements_counter_witness :
    ∃ c', Col.undo colBase = some (UndoResult.reviewUndo entrySnap, c') ∧
      c'.revCount = colBase.revCount - 1 ∧ c'.newCount = colBase.newCount ∧
      c'.lrnCount = colBase.lrnCount ∧ c'.reps = colBase.reps - 1 ∧
      c'.resets = colBase.resets + 1 := by
  obtain ⟨c', h1, _, _, h2, hreps, hresets⟩ :=
    undo_review_decrements_counter colBase [] entrySnap noteL rfl rfl rfl
      (by decide) (by decide)
  obtain ⟨ha, hb', hc'⟩ := h2 (by decide)
  exact ⟨c', h1, ha, hb', hc', hreps, hresets⟩

/-- C10: undoing a review additionally restores the sibling-buried
siblings of the undone card: every other card of the same note whose
queue is the sibling-buried value -2 has its queue rewritten back to its
type, with mod and usn updated. -/
theorem undo_review_restores_buried_siblings (c : Col) (es : List ReviewUndo)
    (e : ReviewUndo) (note : Note)
    (hb : c.backendUndoName = "")
    (hu : c._undo = UndoInfo.reviews (es ++ [e]))
    (hn : getNote? c.db.notes e.card.nid = some note)
    (h0 : 0 ≤ e.card.queue) (h4 : e.card.queue ≤ 4) :
    ∃ c', Col.undo c = some (UndoResult.reviewUndo e, c') ∧
      ∀ r ∈ c.db.cards, r.queue = QUEUE_TYPE_SIBLING_BURIED → r.nid = e.card.nid →
        r.id ≠ e.card.id →
        { r with queue := r.type, mod := c.now, usn := c.usn } ∈ c'.db.cards := by
  obtain ⟨c', h1, hcards, _⟩ := undo_review_spec c es e note hb hu hn h0 h4
  refine ⟨c', h1, ?_⟩
  intro r hr hq hnid hid
  rw [hcards]
  unfold cardsAfterUndo restoreSiblings flushCard
  apply List.mem_map.mpr
  refine ⟨r, ?_, ?_⟩
  · exact List.mem_map.mpr ⟨r, hr, if_neg hid⟩
  · exact if_pos ⟨hq, hnid⟩

/-- Witness for undo_review_restores_buried_siblings at the concrete
state colBase, whose storage holds the buried sibling cardBuried. -/
theorem undo_review_restores_buried_siblings_witness :
    ∃ c', Col.undo colBase = some (UndoResult.reviewUndo entrySnap, c') ∧
      { cardBuried with
        queue := cardBuried.type, mod := colBase.now, usn := colBase.usn }
        ∈ c'.db.cards := by
  obtain ⟨c', h1, h2⟩ :=
    undo_review_restores_buried_siblings colBase [] entrySnap noteL rfl rfl rfl
      (by decide) (by decide)
  exact ⟨c', h1, h2 cardBuried (by decide) (by decide) (by decide) (by decide)⟩

/-- Flushing a note over the stored row that a lookup already locates
makes the lookup return the flushed note. -/
theorem getNote?_flushNote (notes : List Note) (nid : Nat) (old nw : Note)
    (hold : getNote? notes nid = some old) (hid : nw.id = old.id) :
    getNote? (flushNote nw notes) nid = some nw := by
  unfold getNote? at hold
  unfold getNote? flushNote
  have hoid' := List.find?_some hold
  have hoid : old.id = nid := by simpa using hoid'
  have key := find?_map_of_find? (fun n => decide (n.id = nid))
    (fun n => if n.id = nw.id then nw else n) notes old hold
    (by
      intro x hx
      by_cases hxe : x.id = nw.id
      · exact absurd hx (by simp [hxe, hid, hoid])
      · simpa [hxe] using hx)
    (by simp [hid, hoid])
  have hFold : (if old.id = nw.id then nw else old) = nw := if_pos hid.symm
  simpa [hFold] using key

/-- C6: save_card_review_undo_info records, before mutation, a snapshot
of the card together with whether its note already carried the leech
tag; undo of that review removes the leech tag from the note if and only
if the note did not carry the tag at snapshot time but carries it at
undo time. -/
theorem save_records_snapshot_and_undo_removes_leech :
    (∀ (c : Col) (card : Card) (note : Note),
      getNote? c.db.notes card.nid = some note →
      ∃ c', Col.save_card_review_undo_info card c = some c' ∧
        c'._undo = UndoInfo.reviews (pendingReviewEntries c._undo ++
          [{ card := card, was_leech := hasTag note "leech" }]) ∧
        c'.db = c.db) ∧
    (∀ (c : Col) (es : List ReviewUndo) (e : ReviewUndo) (note : Note),
      c.backendUndoName = "" →
      c._undo = UndoInfo.reviews (es ++ [e]) →
      getNote? c.db.notes e.card.nid = some note →
      0 ≤ e.card.queue → e.card.queue ≤ 4 →
      ∃ c' n', Col.undo c = some (UndoResult.reviewUndo e, c') ∧
        getNote? c'.db.notes e.card.nid = some n' ∧
        ((hasTag note "leech" = true ∧ hasTag n' "leech" = false) ↔
          (e.was_leech = false ∧ hasTag note "leech" = true))) := by
  constructor
  · intro c card note hn
    unfold Col.save_card_review_undo_info
    cases hu : c._undo with
    | reviews es =>
      simp only [hu, hn, pendingReviewEntries]
      exact ⟨_, rfl, rfl, rfl⟩
    | checkpoint name =>
      simp only [hu, hn, pendingReviewEntries]
      exact ⟨_, rfl, rfl, rfl⟩
    | none =>
      simp only [hu, hn, pendingReviewEntries]
      exact ⟨_, rfl, rfl, rfl⟩
  · intro c es e note hb hu hn h0 h4
    obtain ⟨c', h1, _, hnotes, _⟩ := undo_review_spec c es e note hb hu hn h0 h4
    cases hw : e.was_leech with
    | false =>
      cases hh : hasTag note "leech" with
      | true =>
        refine ⟨c', removeTag note "leech", h1, ?_, ?_⟩
        · rw [hnotes]
          unfold notesAfterUndo
          rw [hw, hh]
          simpa using getNote?_flushNote c.db.notes e.card.nid note
            (removeTag note "leech") hn (removeTag_id note "leech")
        · simp [hh, hasTag_removeTag]
      | false =>
        refine ⟨c', note, h1, ?_, ?_⟩
        · rw [hnotes]
          unfold notesAfterUndo
          rw [hh]
          simpa using hn
        · constructor
          · rintro ⟨a, _⟩
            exact Bool.noConfusion a
          · rintro ⟨_, b⟩
            exact Bool.noConfusion b
    | true =>
      refine ⟨c', note, h1, ?_, ?_⟩
      · rw [hnotes]
        unfold notesAfterUndo
        rw [hw]
        simpa using hn
      · constructor
        · rintro ⟨a, b⟩
          rw [a] at b
          exact Bool.noConfusion b
        · rintro ⟨hwf, _⟩
          exact Bool.noConfusion hwf

/-- Witness for save_records_snapshot_and_undo_removes_leech: the save
side at colEmptyUndo with cardPost, and the undo side at colBase, where
the answer newly added the leech tag (the snapshot was not a leech and
the note carries the tag). -/
theorem save_records_snapshot_and_undo_removes_leech_witness :
    (∃ c', Col.save_card_review_undo_info cardPost colEmptyUndo = some c' ∧
      c'._undo = UndoInfo.reviews (pendingReviewEntries colEmptyUndo._undo ++
        [{ card := cardPost, was_leech := hasTag noteL "leech" }]) ∧
      c'.db = colEmptyUndo.db) ∧
    (∃ c' n', Col.undo colBase = some (UndoResult.reviewUndo entrySnap, c') ∧
      getNote? c'.db.notes entrySnap.card.nid = some n' ∧
      ((hasTag noteL "leech" = true ∧ hasTag n' "leech" = false) ↔
        (entrySnap.was_leech = false ∧ hasTag noteL "leech" = true))) :=
  ⟨save_records_snapshot_and_undo_removes_leech.1 colEmptyUndo cardPost noteL rfl,
   save_records_snapshot_and_undo_removes_leech.2 colBase [] entrySnap noteL rfl rfl rfl
     (by decide) (by decide)⟩

theorem deleteLatestRevlog_eq (cid : Nat) (rows : List Revlog) (m : Nat)
    (hm : maxIdOfCid cid rows = some m) :
    deleteLatestRevlog cid rows = rows.filter (fun r => r.id ≠ m) := by
  unfold deleteLatestRevlog
  rw [hm]

/-- C1 (amended): undo() immediately after answer_card restores the card
row verbatim from the snapshot, and — unless the card is in a filtered
deck without rescheduling (previewing) — deletes exactly one review log
row, namely the most recent revlog row for that card identified by
recency rather than by a foreign key; when previewing, no revlog row is
deleted. -/
theorem undo_review_restores_card_and_deletes_revlog (c : Col)
    (es : List ReviewUndo) (e : ReviewUndo) (note : Note) (r0 : Card)
    (hb : c.backendUndoName = "")
    (hu : c._undo = UndoInfo.reviews (es ++ [e]))
    (hn : getNote? c.db.notes e.card.nid = some note)
    (h0 : 0 ≤ e.card.queue) (h4 : e.card.queue ≤ 4)
    (hr0 : lookupCard c.db.cards e.card.id = some r0)
    (hnd : (c.db.revlog.map Revlog.id).Nodup) :
    ∃ c', Col.undo c = some (UndoResult.reviewUndo e, c') ∧
      lookupCard c'.db.cards e.card.id = some e.card ∧
      (((c.cardConf e.card).dyn && !(c.cardConf e.card).resched) = false →
        ∀ m, maxIdOfCid e.card.id c.db.revlog = some m →
          ∃ r, r ∈ c.db.revlog ∧ r.cid = e.card.id ∧ r.id = m ∧
            (∀ r2 ∈ c.db.revlog, r2.cid = e.card.id → r2.id ≤ r.id) ∧
            c'.db.revlog = c.db.revlog.erase r ∧
            c'.db.revlog.length + 1 = c.db.revlog.length) ∧
      (((c.cardConf e.card).dyn && !(c.cardConf e.card).resched) = true →
        c'.db.revlog = c.db.revlog) := by
  obtain ⟨c', h1, hcards, _, hrev, _⟩ := undo_review_spec c es e note hb hu hn h0 h4
  refine ⟨c', h1, ?_, ?_, ?_⟩
  · rw [hcards]
    unfold cardsAfterUndo restoreSiblings flushCard lookupCard
    unfold lookupCard at hr0
    have hr0id : r0.id = e.card.id := by simpa using List.find?_some hr0
    have step1 : (c.db.cards.map (fun r => if r.id = e.card.id then e.card else r)).find?
        (fun r => decide (r.id = e.card.id)) = some e.card := by
      have h := find?_map_of_find? (fun r => decide (r.id = e.card.id))
        (fun r => if r.id = e.card.id then e.card else r) c.db.cards r0 hr0
        (by
          intro x hx
          have hxid : x.id ≠ e.card.id := by simpa using hx
          simp [hxid])
        (by simp [hr0id])
      rw [h]
      exact congrArg some (if_pos hr0id)
    have hne : ¬(e.card.queue = QUEUE_TYPE_SIBLING_BURIED ∧ e.card.nid = e.card.nid) := by
      rintro ⟨hq2, _⟩
      rw [QUEUE_TYPE_SIBLING_BURIED] at hq2
      omega
    have hqne : e.card.queue ≠ QUEUE_TYPE_SIBLING_BURIED := by
      rw [QUEUE_TYPE_SIBLING_BURIED]
      omega
    have h2 := find?_map_of_find? (fun r => decide (r.id = e.card.id))
      (fun r => if r.queue = QUEUE_TYPE_SIBLING_BURIED ∧ r.nid = e.card.nid then
        { r with queue := r.type, mod := c.now, usn := c.usn } else r)
      (c.db.cards.map (fun r => if r.id = e.card.id then e.card else r)) e.card step1
      (by
        intro x hx
        by_cases hq : x.queue = QUEUE_TYPE_SIBLING_BURIED ∧ x.nid = e.card.nid
        · simpa [hq] using hx
        · simpa [hq] using hx)
      (by simp [hqne])
    rw [h2]
    exact congrArg some (if_neg hne)
  · intro hprev m hm
    obtain ⟨r, hrmem, hrcid, hrid⟩ := maxIdOfCid_mem e.card.id c.db.revlog m hm
    have herase : c'.db.revlog = c.db.revlog.erase r := by
      rw [hrev]
      unfold revlogAfterUndo
      rw [hprev, if_neg Bool.false_ne_true, deleteLatestRevlog_eq e.card.id c.db.revlog m hm,
        ← hrid]
      exact filter_ne_id_eq_erase c.db.revlog r hrmem hnd
    refine ⟨r, hrmem, hrcid, hrid, ?_, herase, ?_⟩
    · intro r2 hmem2 hc2
      rw [hrid]
      exact maxIdOfCid_ge e.card.id c.db.revlog m hm r2 hmem2 hc2
    · rw [herase, List.length_erase_of_mem hrmem]
      have hpos : 0 < c.db.revlog.length := List.length_pos_of_mem hrmem
      omega
  · intro hprev
    rw [hrev]
    unfold revlogAfterUndo
    rw [hprev, if_pos rfl]

/-- Witness for undo_review_restores_card_and_deletes_revlog at the
concrete state colBase: the snapshot is written back over the mutated
row and the most recent revlog row of card 11 (id 100) is deleted. -/
theorem undo_review_restores_card_witness :
    ∃ c', Col.undo colBase = some (UndoResult.reviewUndo entrySnap, c') ∧
      lookupCard c'.db.cards entrySnap.card.id = some entrySnap.card ∧
      c'.db.revlog = colBase.db.revlog.erase { id := 100, cid := 11 } ∧
      c'.db.revlog.length + 1 = colBase.db.revlog.length := by
  obtain ⟨c', h1, h2, h3, _⟩ :=
    undo_review_restores_card_and_deletes_revlog colBase [] entrySnap noteL cardPost
      rfl rfl rfl (by decide) (by decide) rfl (by decide)
  obtain ⟨r, hrmem, _, hrid, _, herase, hlen⟩ := h3 (by decide) 100 (by decide)
  have hreq : r = { id := 100, cid := 11 } := by
    have hm := hrmem
    simp only [colBase, dbPost, List.mem_cons, List.not_mem_nil, or_false] at hm
    rcases hm with hm | hm | hm
    · rw [hm] at hrid
      exact absurd hrid (by decide)
    · exact hm
    · rw [hm] at hrid
      exact absurd hrid (by decide)
  exact ⟨c', h1, h2, hreq ▸ herase, hlen⟩

/-- Counterexample for C1 as frozen: in a filtered deck without
rescheduling (previewing) the undo of a review deletes no revlog row at
all — undo succeeds and returns the snapshot, yet the revlog table is
unchanged even though a revlog row for the undone card was present and
was the most recent one. -/
theorem undo_review_preview_keeps_revlog_cex :
    (Col.undo colPreview).map (fun p => p.1) = some (UndoResult.reviewUndo entrySnap) ∧
    (Col.undo colPreview).map (fun p => p.2.db.revlog) = some colPreview.db.revlog ∧
    { id := 100, cid := 11 } ∈ colPreview.db.revlog ∧
    maxIdOfCid entrySnap.card.id colPreview.db.revlog = some 100 := by
  exact ⟨rfl, rfl, by decide, by decide⟩

/-- Apply undo twice in a row, keeping only the second result. -/
def undoTwice (c : Col) : Option UndoResult :=
  (Col.undo c).bind (fun p => (Col.undo p.2).map (fun q => q.1))

/-- C2 (amended): the undo slot holds at most one entry variant, but a
reviews-batch entry accumulates one snapshot per recorded review and
undo() pops them one at a time: when the batch holds a single snapshot,
a second undo() with no intervening recorded action returns the empty
result, and a non-review mutation recorded as a named checkpoint
discards any pending reviews-batch entry. -/
theorem undo_single_snapshot_then_empty_and_checkpoint_discards :
    (∀ (c : Col) (e : ReviewUndo) (note : Note),
      c.backendUndoName = "" →
      c._undo = UndoInfo.reviews [e] →
      getNote? c.db.notes e.card.nid = some note →
      0 ≤ e.card.queue → e.card.queue ≤ 4 →
      ∃ c', Col.undo c = some (UndoResult.reviewUndo e, c') ∧
        c'._undo = UndoInfo.none ∧
        Col.undo c' = some (UndoResult.none, c')) ∧
    (∀ (c : Col) (n : String), n ≠ "" →
      (Col._save_checkpoint (some n) c)._undo = UndoInfo.checkpoint n) := by
  constructor
  · intro c e note hb hu hn h0 h4
    obtain ⟨c', h1, _, _, _, hundo, _, _, _, _, _, hbname, _⟩ :=
      undo_review_spec c [] e note hb (by simpa using hu) hn h0 h4
    have hu' : c'._undo = UndoInfo.none := by simpa using hundo
    have hb' : c'.backendUndoName = "" := by rw [hbname, hb]
    refine ⟨c', h1, hu', ?_⟩
    unfold Col.undo
    rw [hb']
    simp [hu']
  · intro c n hn
    simp [Col._save_checkpoint, hn]

/-- Witness for undo_single_snapshot_then_empty_and_checkpoint_discards:
the one-snapshot batch of colBase is emptied by the first undo and the
second returns None; saving the named checkpoint "Add Note" over the
pending two-snapshot batch of colTwo discards it. -/
theorem undo_single_snapshot_witness :
    (∃ c', Col.undo colBase = some (UndoResult.reviewUndo entrySnap, c') ∧
      c'._undo = UndoInfo.none ∧
      Col.undo c' = some (UndoResult.none, c')) ∧
    (Col._save_checkpoint (some "Add Note") colTwo)._undo
      = UndoInfo.checkpoint "Add Note" :=
  ⟨undo_single_snapshot_then_empty_and_checkpoint_discards.1 colBase entrySnap noteL
     rfl rfl rfl (by decide) (by decide),
   undo_single_snapshot_then_empty_and_checkpoint_discards.2 colTwo "Add Note"
     (by decide)⟩

/-- Counterexample for C2 as frozen: with two snapshots pending in one
reviews batch, the first undo() successfully consumes the pending entry
snapshot, yet a second undo() with no intervening recorded action
returns another review undo result rather than the empty result. -/
theorem undo_twice_two_reviews_cex :
    (Col.undo colTwo).map (fun p => p.1) = some (UndoResult.reviewUndo entryTwoB) ∧
    undoTwice colTwo = some (UndoResult.reviewUndo entryTwoA) ∧
    UndoResult.reviewUndo entryTwoA ≠ UndoResult.none := by
  exact ⟨rfl, rfl, by decide⟩

end Anki
